import Mathlib

/-!
Verification of the ATT bus-seat booking core.

Shallow embedding of the seat-allocation / booking-ledger core of the
repository:

* the `bookings` / `seats` tables and the partial unique index
  `idx_unique_active_booking` from the SQL migration
  (`ON public.bookings (bus_id, seat_number) WHERE status IN ('pending','paid')`),
* the public booking form submit path (`onSubmit` in the booking form,
  a plain insert with `status` defaulting to `'pending'`),
* the admin `Bookings` page (`updateBookingStatus` and the
  conditionally-rendered status buttons),
* the `get_seat_status` SQL function,
* the Hubtel payment webhook edge function (key normalization, the
  recognized paid-status vocabulary, the booking update, and the
  fire-and-forget confirmation-SMS task).

Database statements are embedded with PostgreSQL's semantics for the
declared constraints: the `bookings` primary key and the partial unique
index are checked on every INSERT and UPDATE that puts a row into the
indexed set.  `id` columns, UUIDs and TEXT columns are modelled as
`String`; `NUMERIC(10,2)` amounts are modelled as `Nat` values in
pesewas (hundredths of GHS); timestamp columns, which no modelled
operation reads, are omitted.
-/

namespace AttBus

/-- A row of `public.seats` (columns consulted by the modelled operations:
`id`, `bus_id`, `seat_number`, `active`). -/
structure Seat where
  id : String
  busId : String
  seatNumber : Nat
  active : Bool
deriving DecidableEq, Repr

/-- A row of `public.bookings` (all columns except the timestamps). -/
structure Booking where
  id : String
  fullName : String
  passengerClass : String
  email : String
  phone : String
  emergencyName : String
  emergencyPhone : String
  pickupPointId : String
  destinationId : String
  busId : String
  seatNumber : Nat
  referralId : Option String
  amount : Nat
  status : String
  paymentReference : Option String
  receiptUrl : Option String
deriving DecidableEq, Repr

/-- A row of one of the reference tables `destinations`, `pickup_points`,
`buses` (the modelled operations consult only `id` and `name`). -/
structure RefRow where
  id : String
  name : String
deriving DecidableEq, Repr

/-- The database state: the tables touched by the booking core. -/
structure DB where
  seats : List Seat
  bookings : List Booking
  destinations : List RefRow
  pickupPoints : List RefRow
  buses : List RefRow
deriving DecidableEq, Repr

/-- The predicate of the partial unique index `idx_unique_active_booking`:
`status IN ('pending','paid')`. -/
def statusActive (s : String) : Bool :=
  s == "pending" || s == "paid"

/-- A booking row occupies the index entry for bus `busId`, seat `n`. -/
def keyMatch (busId : String) (n : Nat) (b : Booking) : Bool :=
  b.busId == busId && b.seatNumber == n && statusActive b.status

/-- Number of non-cancelled (pending or paid) bookings for a given
(bus, seat) pair — the quantity the allocation invariant bounds. -/
def activeCount (db : DB) (busId : String) (n : Nat) : Nat :=
  (db.bookings.filter (keyMatch busId n)).length

/-- Whether inserting an indexed row for (busId, n) would collide with an
existing entry of the partial unique index. -/
def indexConflict (rows : List Booking) (busId : String) (n : Nat) : Bool :=
  rows.any fun b => b.busId == busId && b.seatNumber == n && statusActive b.status

/-- Whether a row other than the one with id `bid` occupies the index entry
for (busId, n) — the collision test for an UPDATE of row `bid`. -/
def conflictOthers (rows : List Booking) (bid : String) (busId : String) (n : Nat) : Bool :=
  rows.any fun o => o.id != bid && o.busId == busId && o.seatNumber == n && statusActive o.status

/-- Storage-level rejection: the booking primary key or the partial unique
index `idx_unique_active_booking`. -/
inductive DBError where
  | uniqueViolation
  | pkViolation
deriving DecidableEq, Repr

/-- `INSERT INTO public.bookings`: enforces the partial unique index
(the application treats this rejection as the seat-taken signal) and the
primary key. -/
def dbInsert (db : DB) (b : Booking) : Except DBError DB :=
  if statusActive b.status && indexConflict db.bookings b.busId b.seatNumber then
    .error .uniqueViolation
  else if db.bookings.any (fun o => o.id == b.id) then
    .error .pkViolation
  else
    .ok { db with bookings := db.bookings ++ [b] }

/-- The SET clause of an UPDATE on `public.bookings`: which of the three
columns written by the modelled code paths are assigned, and to what. -/
structure BookingUpdates where
  setStatus : Option String := none
  setPaymentReference : Option String := none
  setReceiptUrl : Option String := none
deriving DecidableEq, Repr

/-- Apply a SET clause to one booking row. -/
def applyUpdates (u : BookingUpdates) (b : Booking) : Booking :=
  { b with
    status := u.setStatus.getD b.status
    paymentReference := match u.setPaymentReference with
      | some v => some v
      | none => b.paymentReference
    receiptUrl := match u.setReceiptUrl with
      | some v => some v
      | none => b.receiptUrl }

/-- Rewrite the row with id `bid` (at most one row matches, `id` being the
primary key). -/
def updateFirst (bid : String) (u : BookingUpdates) : List Booking → List Booking
  | [] => []
  | b :: bs =>
    if b.id == bid then applyUpdates u b :: bs
    else b :: updateFirst bid u bs

/-- `UPDATE public.bookings SET … WHERE id = bid`, returning the updated row
when one matched (the `.select(…).maybeSingle()` result).  If the updated
row lands in the partial unique index and another row already holds the
same (bus_id, seat_number) entry, the statement fails with a uniqueness
violation and the state is unchanged. -/
def dbUpdate (db : DB) (bid : String) (u : BookingUpdates) :
    Except DBError (DB × Option Booking) :=
  match db.bookings.find? (fun b => b.id == bid) with
  | none => .ok (db, none)
  | some b =>
    let b' := applyUpdates u b
    if statusActive b'.status && conflictOthers db.bookings bid b'.busId b'.seatNumber then
      .error .uniqueViolation
    else
      .ok ({ db with bookings := updateFirst bid u db.bookings }, some b')

/-- The public booking form's `onSubmit`: a plain insert of the form payload;
the `status` column is absent from the payload, so it takes its declared
default `'pending'`.  No seat lookup and no activeness check happen on this
path. -/
def submitBooking (db : DB) (b : Booking) : Except DBError DB :=
  dbInsert db { b with status := "pending" }

/-- The admin Bookings page's `updateBookingStatus`: sets only the `status`
column of the row with the given id. -/
def updateBookingStatus (db : DB) (bookingId : String) (newStatus : String) :
    Except DBError DB :=
  match dbUpdate db bookingId { setStatus := some newStatus } with
  | .ok (db', _) => .ok db'
  | .error e => .error e

/-- The target statuses of the buttons the admin Bookings page renders for a
booking in the given status: `pending` shows "Mark Paid" and "Cancel",
`cancelled` shows "Restore", and no other status shows any button. -/
def bookingActionTargets (status : String) : List String :=
  (if status == "pending" then ["paid", "cancelled"] else []) ++
  (if status == "cancelled" then ["pending"] else [])

/-- Whether the admin operator surface offers a manual transition from
status `src` to status `tgt`. -/
def adminOffers (src tgt : String) : Bool :=
  bookingActionTargets src |>.contains tgt

/-- One row of the `get_seat_status` result:
`(seat_number, is_active, status)`. -/
structure SeatStatusRow where
  seatNumber : Nat
  isActive : Bool
  status : String
deriving DecidableEq, Repr

/-- The EXISTS subquery of `get_seat_status`: a booking for the same bus and
seat number with `status IN ('pending','paid')`. -/
def seatTaken (bookings : List Booking) (busId : String) (n : Nat) : Bool :=
  bookings.any fun b =>
    b.busId == busId && b.seatNumber == n && (b.status == "pending" || b.status == "paid")

/-- Insert a seat row into a list sorted by `seat_number`. -/
def insertBySeatNumber (s : Seat) : List Seat → List Seat
  | [] => [s]
  | t :: ts =>
    if s.seatNumber ≤ t.seatNumber then s :: t :: ts
    else t :: insertBySeatNumber s ts

/-- `ORDER BY s.seat_number`: sort the seat rows by seat number. -/
def sortBySeatNumber : List Seat → List Seat
  | [] => []
  | s :: ss => insertBySeatNumber s (sortBySeatNumber ss)

/-- The row `get_seat_status` derives for one seat row. -/
def seatStatusRowOf (db : DB) (s : Seat) : SeatStatusRow :=
  { seatNumber := s.seatNumber
    isActive := s.active
    status := if seatTaken db.bookings s.busId s.seatNumber then "taken" else "available" }

/-- The SQL function `public.get_seat_status(_bus_id)`: one row per row of
`public.seats` with the given `bus_id`, ordered by seat number, with
`status = 'taken'` exactly when a pending or paid booking exists for the
(bus, seat) pair. -/
def get_seat_status (db : DB) (busId : String) : List SeatStatusRow :=
  (sortBySeatNumber (db.seats.filter (fun s => s.busId == busId))).map
    (seatStatusRowOf db)

/-- The seat-map UI's `SeatButton` disabled condition:
`!seat.is_active || seat.status === "taken"`. -/
def seatButtonDisabled (s : SeatStatusRow) : Bool :=
  !s.isActive || s.status == "taken"

/-! ### The Hubtel payment webhook

The webhook's JSON body is modelled as a record of optional string fields
(one per casing variant the handler reads); JavaScript's `||` chains and
truthiness tests on those values are embedded explicitly (`""` is falsy,
a missing field is falsy). -/

/-- The fields of the webhook body the handler reads. -/
structure WebhookPayload where
  status : Option String := none
  bigStatus : Option String := none
  transactionStatus : Option String := none
  bigTransactionStatus : Option String := none
  clientReference : Option String := none
  bigClientReference : Option String := none
  checkoutId : Option String := none
  bigCheckoutId : Option String := none
  transactionId : Option String := none
  bigTransactionId : Option String := none
  receiptUrl : Option String := none
  bigReceiptUrl : Option String := none
  receiptURL : Option String := none
deriving DecidableEq, Repr

/-- JavaScript `a || b` on possibly-absent strings: the left value unless it
is absent or the empty string. -/
def jsOr (a b : Option String) : Option String :=
  match a with
  | some s => if s == "" then b else some s
  | none => b

/-- JavaScript truthiness of a possibly-absent string. -/
def jsTruthy : Option String → Bool
  | some s => s != ""
  | none => false

/-- `payload.status || payload.Status || payload.transactionStatus ||
payload.TransactionStatus`. -/
def whStatus (p : WebhookPayload) : Option String :=
  jsOr p.status (jsOr p.bigStatus (jsOr p.transactionStatus p.bigTransactionStatus))

/-- `payload.clientReference || payload.ClientReference || payload.checkoutId
|| payload.CheckoutId`. -/
def whReference (p : WebhookPayload) : Option String :=
  jsOr p.clientReference (jsOr p.bigClientReference (jsOr p.checkoutId p.bigCheckoutId))

/-- `payload.transactionId || payload.TransactionId`. -/
def whTransactionId (p : WebhookPayload) : Option String :=
  jsOr p.transactionId p.bigTransactionId

/-- `payload.receiptUrl || payload.ReceiptUrl || payload.receiptURL`. -/
def whReceiptUrl (p : WebhookPayload) : Option String :=
  jsOr p.receiptUrl (jsOr p.bigReceiptUrl p.receiptURL)

/-- The recognized "paid" status vocabulary. -/
def paidStates : List String :=
  ["Success", "Successful", "Completed", "PAID", "Paid"]

/-- `typeof status === "string" && paidStates.includes(status)`. -/
def whIsPaid (p : WebhookPayload) : Bool :=
  match whStatus p with
  | some s => paidStates.contains s
  | none => false

/-- The SET clause the webhook builds: `payment_reference` always
(`transactionId ?? reference` — nullish coalescing, so a present-but-empty
transaction id is used), `status = 'paid'` only on a recognized paid status,
`receipt_url` only when truthy. -/
def webhookUpdates (p : WebhookPayload) (ref : String) : BookingUpdates :=
  { setStatus := if whIsPaid p then some "paid" else none
    setPaymentReference := some ((whTransactionId p).getD ref)
    setReceiptUrl := if jsTruthy (whReceiptUrl p) then whReceiptUrl p else none }

/-- `normalizeGhanaMsisdn`: strip everything but digits and `+`, then
normalize Ghanaian prefixes. -/
def normalizeGhanaMsisdn (input : Option String) : Option String :=
  match input with
  | none => none
  | some s =>
    if s == "" then none
    else
      let digits := String.mk (s.data.filter (fun c => c.isDigit || c == '+'))
      if digits.startsWith "+" then some (digits.drop 1)
      else if digits.startsWith "233" then some digits
      else if digits.startsWith "0" && decide (10 ≤ digits.length) then
        some ("233" ++ digits.drop 1)
      else some digits

/-- `Number(b.amount).toFixed(2)` for an amount held in pesewas. -/
def formatFixed2 (pesewas : Nat) : String :=
  let r := pesewas % 100
  toString (pesewas / 100) ++ "." ++ (if r < 10 then "0" ++ toString r else toString r)

/-- `(x)?.data?.name || ""` after a lookup that is only issued when the key
is truthy. -/
def lookupName (rows : List RefRow) (key : String) : String :=
  if key == "" then ""
  else
    match rows.find? (fun r => r.id == key) with
    | some r => r.name
    | none => ""

/-- The confirmation-SMS text assembled by `sendPaidConfirmationSms`. -/
def buildPaidSmsContent (db : DB) (bookingId : String) (b : Booking) : String :=
  let destName := lookupName db.destinations b.destinationId
  let pickName := lookupName db.pickupPoints b.pickupPointId
  let _busName := lookupName db.buses b.busId
  let ref := bookingId.take 8
  let seat := if b.seatNumber == 0 then "" else "Seat " ++ toString b.seatNumber
  let amount := "GHS " ++ formatFixed2 b.amount
  let route := String.intercalate " -> " ([pickName, destName].filter (fun s => s != ""))
  let parts :=
    ["ATT Transport: Payment confirmed.",
     if route == "" then "" else route ++ ".",
     if seat == "" then "" else seat ++ ".",
     if amount == "" then "" else amount ++ ".",
     "Ref: " ++ ref ++ ".",
     "Show SMS at boarding."].filter (fun s => s != "")
  (String.intercalate " " parts).take 300

/-- An SMS dispatch the confirmation task would hand to the Hubtel SMS API. -/
structure Sms where
  smsTo : String
  content : String
deriving DecidableEq, Repr

/-- The asynchronous confirmation task `sendPaidConfirmationSms`: looks the
booking up when not handed a row, gives up silently when the phone is
missing or does not normalize to a truthy MSISDN, and otherwise dispatches
exactly one message.  All failures are caught inside the task. -/
def sendPaidConfirmationSms (db : DB) (bookingId : String) (booking : Option Booking) :
    Option Sms :=
  let found :=
    match booking with
    | some b => some b
    | none => db.bookings.find? (fun r => r.id == bookingId)
  match found with
  | none => none
  | some b =>
    if b.phone == "" then none
    else
      match normalizeGhanaMsisdn (some b.phone) with
      | none => none
      | some msisdn =>
        if msisdn == "" then none
        else some { smsTo := msisdn, content := buildPaidSmsContent db bookingId b }

/-- The webhook's HTTP outcome: `200 {ok:true}` or a 500 error body. -/
inductive WebhookResponse where
  | okTrue
  | serverError
deriving DecidableEq, Repr

/-- Everything observable about one webhook delivery: the resulting state,
the HTTP response, the scheduled SMS tasks (each with the dispatch it
computes, `none` when the task returns without sending) and, per task,
whether the network delivery succeeded. -/
structure WebhookResult where
  db : DB
  response : WebhookResponse
  smsTasks : List (Option Sms)
  smsDelivered : List Bool
deriving DecidableEq, Repr

/-- The Hubtel webhook handler.  `netOk` stands for the behaviour of the
external SMS gateway during the detached task; the handler never reads it.
The state update and the response are computed before the SMS task is
scheduled (`EdgeRuntime.waitUntil`), and the task swallows every failure. -/
def processWebhook (db : DB) (p : WebhookPayload) (netOk : Bool) : WebhookResult :=
  if !jsTruthy (whReference p) then
    { db := db, response := .okTrue, smsTasks := [], smsDelivered := [] }
  else
    let ref := (whReference p).getD ""
    match dbUpdate db ref (webhookUpdates p ref) with
    | .error _ =>
      { db := db, response := .serverError, smsTasks := [], smsDelivered := [] }
    | .ok (db', updated) =>
      let tasks :=
        match updated with
        | some row => if whIsPaid p then [sendPaidConfirmationSms db' row.id (some row)] else []
        | none => []
      { db := db', response := .okTrue, smsTasks := tasks
        smsDelivered := tasks.map (fun t => t.isSome && netOk) }

/-! ### The operations that touch the booking ledger

Requests arrive concurrently but every write is one atomic SQL statement;
a run of the system is a serialization of those statements, so reachable
states are those produced by any sequence of the operations below. -/

/-- The operations of the system that can touch the `bookings` or `seats`
tables: the public booking form submit, an admin status button, a webhook
delivery, and the admin seat toggles (per seat, or all seats of a bus). -/
inductive AppOp where
  | bookSeat (b : Booking)
  | adminSetStatus (bookingId : String) (newStatus : String)
  | webhook (p : WebhookPayload) (netOk : Bool)
  | seatSetActive (seatId : String) (active : Bool)
  | seatSetAllActive (busId : String) (active : Bool)

/-- The state after an operation (a failed statement leaves the state
unchanged; the caller sees the typed rejection instead). -/
def applyOp (db : DB) (op : AppOp) : DB :=
  match op with
  | .bookSeat b =>
    match submitBooking db b with
    | .ok db' => db'
    | .error _ => db
  | .adminSetStatus bid st =>
    match updateBookingStatus db bid st with
    | .ok db' => db'
    | .error _ => db
  | .webhook p netOk => (processWebhook db p netOk).db
  | .seatSetActive sid a =>
    { db with seats := db.seats.map fun s => if s.id == sid then { s with active := a } else s }
  | .seatSetAllActive busId a =>
    { db with seats := db.seats.map fun s => if s.busId == busId then { s with active := a } else s }

/-- The SMS tasks an operation schedules: only the webhook handler ever
calls `sendPaidConfirmationSms`; no other code path in the repository
dispatches an SMS. -/
def opSms (db : DB) (op : AppOp) : List (Option Sms) :=
  match op with
  | .webhook p netOk => (processWebhook db p netOk).smsTasks
  | _ => []

/-- Reachable database states: the booking ledger starts empty (the seat
registry and the reference tables hold arbitrary operator-provisioned
rows) and evolves by the operations above. -/
inductive Reachable : DB → Prop where
  | init (seats : List Seat) (destinations pickupPoints buses : List RefRow) :
      Reachable { seats := seats, bookings := [], destinations := destinations,
                  pickupPoints := pickupPoints, buses := buses }
  | step {db : DB} (op : AppOp) : Reachable db → Reachable (applyOp db op)

/-- The ledger invariant maintained by the storage layer: booking ids are
unique (primary key) and every (bus, seat) pair carries at most one
non-cancelled booking (partial unique index). -/
def LedgerInv (db : DB) : Prop :=
  (db.bookings.map Booking.id).Nodup ∧ ∀ B N, activeCount db B N ≤ 1

/-! ### Helper lemmas -/

theorem applyUpdates_id (u : BookingUpdates) (b : Booking) :
    (applyUpdates u b).id = b.id := rfl

theorem applyUpdates_busId (u : BookingUpdates) (b : Booking) :
    (applyUpdates u b).busId = b.busId := rfl

theorem applyUpdates_seatNumber (u : BookingUpdates) (b : Booking) :
    (applyUpdates u b).seatNumber = b.seatNumber := rfl

theorem applyUpdates_idem (u : BookingUpdates) (b : Booking) :
    applyUpdates u (applyUpdates u b) = applyUpdates u b := by
  cases u with
  | mk s pr ru =>
    cases s <;> cases pr <;> cases ru <;> rfl

theorem updateFirst_map_id (bid : String) (u : BookingUpdates) (l : List Booking) :
    (updateFirst bid u l).map Booking.id = l.map Booking.id := by
  induction l with
  | nil => rfl
  | cons b bs ih =>
    by_cases h : (b.id == bid) = true
    · simp [updateFirst, h, applyUpdates_id]
    · simp [updateFirst, h, ih]

theorem find_split {α : Type} (p : α → Bool) (l : List α) (a : α)
    (h : l.find? p = some a) :
    ∃ l1 l2, l = l1 ++ a :: l2 ∧ ∀ x ∈ l1, p x = false := by
  induction l with
  | nil => simp [List.find?] at h
  | cons b bs ih =>
    by_cases hb : p b = true
    · refine ⟨[], bs, ?_, by simp⟩
      rw [List.find?_cons_of_pos _ hb] at h
      simp at h
      subst h
      simp
    · rw [List.find?_cons_of_neg _ hb] at h
      obtain ⟨l1, l2, hsp, hall⟩ := ih h
      refine ⟨b :: l1, l2, by simp [hsp], ?_⟩
      intro x hx
      rcases List.mem_cons.mp hx with rfl | hx
      · exact Bool.eq_false_iff.mpr hb
      · exact hall x hx

theorem updateFirst_append (bid : String) (u : BookingUpdates)
    (l1 l2 : List Booking) (b : Booking)
    (h1 : ∀ x ∈ l1, (x.id == bid) = false) (hb : (b.id == bid) = true) :
    updateFirst bid u (l1 ++ b :: l2) = l1 ++ applyUpdates u b :: l2 := by
  induction l1 with
  | nil => simp [updateFirst, hb]
  | cons x xs ih =>
    have hx : (x.id == bid) = false := h1 x (by simp)
    simp only [List.cons_append, updateFirst, hx]
    simp only [Bool.false_eq_true, if_false, List.cons.injEq, true_and]
    exact ih (fun y hy => h1 y (by simp [hy]))

theorem conflictOthers_updateFirst (bid : String) (u : BookingUpdates)
    (l : List Booking) (B : String) (N : Nat) :
    conflictOthers (updateFirst bid u l) bid B N = conflictOthers l bid B N := by
  induction l with
  | nil => rfl
  | cons b bs ih =>
    simp only [conflictOthers] at ih ⊢
    by_cases h : (b.id == bid) = true
    · have hbid : b.id = bid := beq_iff_eq.mp h
      have h1 : ((applyUpdates u b).id != bid) = false := by
        simp [bne, applyUpdates_id, hbid]
      have h2 : (b.id != bid) = false := by simp [bne, hbid]
      simp [updateFirst, h, h1, h2]
    · simp only [updateFirst, h, Bool.false_eq_true, if_false, List.any_cons]
      rw [ih]

theorem find?_updateFirst (bid : String) (u : BookingUpdates) (l : List Booking) :
    (updateFirst bid u l).find? (fun x => x.id == bid) =
      (l.find? (fun x => x.id == bid)).map (applyUpdates u) := by
  induction l with
  | nil => rfl
  | cons b bs ih =>
    by_cases h : (b.id == bid) = true
    · have h' : ((applyUpdates u b).id == bid) = true := by
        rw [applyUpdates_id]; exact h
      simp [updateFirst, List.find?_cons, h, h']
    · have hf : (b.id == bid) = false := Bool.eq_false_iff.mpr h
      simp [updateFirst, List.find?_cons, hf, ih]

theorem dbInsert_ok_shape {db : DB} {b : Booking} {db2 : DB}
    (h : dbInsert db b = .ok db2) :
    db2 = { db with bookings := db.bookings ++ [b] } ∧
    (statusActive b.status && indexConflict db.bookings b.busId b.seatNumber) = false ∧
    (db.bookings.any fun o => o.id == b.id) = false := by
  unfold dbInsert at h
  by_cases h1 : (statusActive b.status && indexConflict db.bookings b.busId b.seatNumber) = true
  · rw [if_pos h1] at h; exact absurd h (by simp)
  · rw [if_neg h1] at h
    by_cases h2 : (db.bookings.any fun o => o.id == b.id) = true
    · rw [if_pos h2] at h; exact absurd h (by simp)
    · rw [if_neg h2] at h
      simp only [Except.ok.injEq] at h
      exact ⟨h.symm, Bool.eq_false_iff.mpr h1, Bool.eq_false_iff.mpr h2⟩

theorem activeCount_dbInsert {db : DB} {b : Booking} {db2 : DB}
    (h : dbInsert db b = .ok db2) (B : String) (N : Nat)
    (hle : activeCount db B N ≤ 1) : activeCount db2 B N ≤ 1 := by
  obtain ⟨hdb, hguard, -⟩ := dbInsert_ok_shape h
  subst hdb
  unfold activeCount at hle ⊢
  simp only [List.filter_append, List.length_append]
  by_cases hk : keyMatch B N b = true
  · have hb : (b.busId = B ∧ b.seatNumber = N) ∧ statusActive b.status = true := by
      simpa [keyMatch, Bool.and_eq_true, beq_iff_eq] using hk
    obtain ⟨⟨hB, hN⟩, hact⟩ := hb
    have hconf : indexConflict db.bookings b.busId b.seatNumber = false := by
      cases hc : indexConflict db.bookings b.busId b.seatNumber
      · rfl
      · rw [hact, hc] at hguard; simp at hguard
    have hnil : db.bookings.filter (keyMatch B N) = [] := by
      rw [List.filter_eq_nil_iff]
      intro x hx hkx
      have hx' : (x.busId = B ∧ x.seatNumber = N) ∧ statusActive x.status = true := by
        simpa [keyMatch, Bool.and_eq_true, beq_iff_eq] using hkx
      have hc : indexConflict db.bookings b.busId b.seatNumber = true := by
        rw [indexConflict, List.any_eq_true]
        refine ⟨x, hx, ?_⟩
        simp [Bool.and_eq_true, beq_iff_eq, hx'.1.1, hx'.1.2, hx'.2, hB, hN]
      rw [hconf] at hc; cases hc
    rw [hnil]
    simp [List.filter_cons, hk]
  · have hb : List.filter (keyMatch B N) [b] = [] := by
      simp [List.filter_cons, hk]
    rw [hb]
    simpa using hle

theorem nodup_dbInsert {db : DB} {b : Booking} {db2 : DB}
    (h : dbInsert db b = .ok db2)
    (hnd : (db.bookings.map Booking.id).Nodup) :
    (db2.bookings.map Booking.id).Nodup := by
  obtain ⟨hdb, -, hpk⟩ := dbInsert_ok_shape h
  subst hdb
  simp only [List.map_append, List.map_cons, List.map_nil]
  rw [List.nodup_append]
  refine ⟨hnd, List.nodup_singleton _, ?_⟩
  intro x hx hy
  simp only [List.mem_singleton] at hy
  subst hy
  rw [List.mem_map] at hx
  obtain ⟨o, ho, hoid⟩ := hx
  have hany : (db.bookings.any fun o => o.id == b.id) = true := by
    rw [List.any_eq_true]
    exact ⟨o, ho, by simp [hoid]⟩
  rw [hpk] at hany; cases hany

theorem dbUpdate_ok_shape {db : DB} {bid : String} {u : BookingUpdates}
    {db2 : DB} {r : Option Booking} {b : Booking}
    (hfind : db.bookings.find? (fun x => x.id == bid) = some b)
    (h : dbUpdate db bid u = .ok (db2, r)) :
    db2 = { db with bookings := updateFirst bid u db.bookings } ∧
    r = some (applyUpdates u b) ∧
    (statusActive (applyUpdates u b).status &&
      conflictOthers db.bookings bid (applyUpdates u b).busId
        (applyUpdates u b).seatNumber) = false := by
  have h' : (if statusActive (applyUpdates u b).status &&
        conflictOthers db.bookings bid (applyUpdates u b).busId (applyUpdates u b).seatNumber
      then (Except.error DBError.uniqueViolation : Except DBError (DB × Option Booking))
      else .ok ({ db with bookings := updateFirst bid u db.bookings },
                some (applyUpdates u b))) = .ok (db2, r) := by
    rw [dbUpdate, hfind] at h
    exact h
  by_cases hg : (statusActive (applyUpdates u b).status &&
      conflictOthers db.bookings bid (applyUpdates u b).busId
        (applyUpdates u b).seatNumber) = true
  · rw [if_pos hg] at h'; exact absurd h' (by simp)
  · rw [if_neg hg] at h'
    simp only [Except.ok.injEq, Prod.mk.injEq] at h'
    exact ⟨h'.1.symm, h'.2.symm, Bool.eq_false_iff.mpr hg⟩

theorem dbUpdate_none_shape {db : DB} {bid : String} {u : BookingUpdates}
    {db2 : DB} {r : Option Booking}
    (hfind : db.bookings.find? (fun x => x.id == bid) = none)
    (h : dbUpdate db bid u = .ok (db2, r)) : db2 = db ∧ r = none := by
  have h' : (Except.ok (db, none) : Except DBError (DB × Option Booking)) = .ok (db2, r) := by
    rw [dbUpdate, hfind] at h
    exact h
  simp only [Except.ok.injEq, Prod.mk.injEq] at h'
  exact ⟨h'.1.symm, h'.2.symm⟩

theorem id_ne_of_nodup_split {l1 l2 : List Booking} {b : Booking}
    (hnd : (((l1 ++ b :: l2)).map Booking.id).Nodup) :
    ∀ x ∈ l2, x.id ≠ b.id := by
  simp only [List.map_append, List.map_cons] at hnd
  have h2 := (List.nodup_append.mp hnd).2.1
  rw [List.nodup_cons] at h2
  intro x hx he
  exact h2.1 (by rw [← he]; exact List.mem_map_of_mem _ hx)

theorem activeCount_dbUpdate {db : DB} {bid : String} {u : BookingUpdates}
    {db2 : DB} {r : Option Booking}
    (h : dbUpdate db bid u = .ok (db2, r))
    (hnd : (db.bookings.map Booking.id).Nodup)
    (B : String) (N : Nat)
    (hle : activeCount db B N ≤ 1) : activeCount db2 B N ≤ 1 := by
  rcases hfind : db.bookings.find? (fun x => x.id == bid) with _ | b
  · obtain ⟨rfl, -⟩ := dbUpdate_none_shape hfind h
    exact hle
  · obtain ⟨hdb, -, hguard⟩ := dbUpdate_ok_shape hfind h
    subst hdb
    have hpb := List.find?_some hfind
    have hbid : b.id = bid := beq_iff_eq.mp hpb
    obtain ⟨l1, l2, hsplit, hl1⟩ := find_split _ _ _ hfind
    have hupd : updateFirst bid u db.bookings = l1 ++ applyUpdates u b :: l2 := by
      rw [hsplit]
      exact updateFirst_append bid u l1 l2 b hl1 (by simp [hbid])
    unfold activeCount at hle ⊢
    simp only at hle ⊢
    rw [hupd]
    rw [hsplit] at hle hnd
    have hne2 : ∀ x ∈ l2, x.id ≠ b.id := id_ne_of_nodup_split hnd
    simp only [List.filter_append, List.length_append, List.filter_cons] at hle ⊢
    by_cases hk : keyMatch B N (applyUpdates u b) = true
    · have hb' : ((applyUpdates u b).busId = B ∧ (applyUpdates u b).seatNumber = N) ∧
          statusActive (applyUpdates u b).status = true := by
        simpa [keyMatch, Bool.and_eq_true, beq_iff_eq] using hk
      obtain ⟨⟨hB, hN⟩, hact⟩ := hb'
      have hconf : conflictOthers db.bookings bid (applyUpdates u b).busId
          (applyUpdates u b).seatNumber = false := by
        cases hc : conflictOthers db.bookings bid (applyUpdates u b).busId
            (applyUpdates u b).seatNumber
        · rfl
        · rw [hact, hc] at hguard; simp at hguard
      have hmemfalse : ∀ x ∈ db.bookings, x.id ≠ bid → keyMatch B N x = false := by
        intro x hx hxid
        cases hkx : keyMatch B N x
        · rfl
        · exfalso
          have hx' : (x.busId = B ∧ x.seatNumber = N) ∧ statusActive x.status = true := by
            simpa [keyMatch, Bool.and_eq_true, beq_iff_eq] using hkx
          have hc : conflictOthers db.bookings bid (applyUpdates u b).busId
              (applyUpdates u b).seatNumber = true := by
            rw [conflictOthers, List.any_eq_true]
            refine ⟨x, hx, ?_⟩
            simp [Bool.and_eq_true, beq_iff_eq, bne_iff_ne, hxid, hx'.1.1, hx'.1.2,
              hx'.2, hB, hN]
          rw [hconf] at hc; cases hc
      rw [hsplit] at hmemfalse
      have hf1 : l1.filter (keyMatch B N) = [] := by
        rw [List.filter_eq_nil_iff]
        intro x hx hkx
        have : keyMatch B N x = false := by
          refine hmemfalse x (by simp [hx]) ?_
          intro he
          have := hl1 x hx
          rw [he] at this
          simp at this
        rw [this] at hkx; cases hkx
      have hf2 : l2.filter (keyMatch B N) = [] := by
        rw [List.filter_eq_nil_iff]
        intro x hx hkx
        have : keyMatch B N x = false := by
          refine hmemfalse x (by simp [hx]) ?_
          rw [← hbid]
          exact hne2 x hx
        rw [this] at hkx; cases hkx
      rw [hf1, hf2]
      simp [hk]
    · rw [if_neg (by simp [hk])]
      by_cases hkb : keyMatch B N b = true
      · rw [if_pos hkb] at hle
        simp only [List.length_cons] at hle
        omega
      · rw [if_neg hkb] at hle
        omega

theorem nodup_dbUpdate {db : DB} {bid : String} {u : BookingUpdates}
    {db2 : DB} {r : Option Booking}
    (h : dbUpdate db bid u = .ok (db2, r))
    (hnd : (db.bookings.map Booking.id).Nodup) :
    (db2.bookings.map Booking.id).Nodup := by
  rcases hfind : db.bookings.find? (fun x => x.id == bid) with _ | b
  · obtain ⟨rfl, -⟩ := dbUpdate_none_shape hfind h
    exact hnd
  · obtain ⟨hdb, -, -⟩ := dbUpdate_ok_shape hfind h
    subst hdb
    simpa [updateFirst_map_id] using hnd

theorem processWebhook_db_shape (db : DB) (p : WebhookPayload) (netOk : Bool) :
    (processWebhook db p netOk).db = db ∨
    ∃ ref u r, dbUpdate db ref u = .ok ((processWebhook db p netOk).db, r) := by
  unfold processWebhook
  by_cases ht : jsTruthy (whReference p) = true
  · simp only [ht, Bool.not_true, Bool.false_eq_true, if_false]
    rcases hdu : dbUpdate db ((whReference p).getD "")
        (webhookUpdates p ((whReference p).getD "")) with e | ⟨db', upd⟩
    · simp only [hdu]
      exact Or.inl (by simp)
    · simp only [hdu]
      exact Or.inr ⟨_, _, upd, by rw [hdu]⟩
  · have ht' : jsTruthy (whReference p) = false := Bool.eq_false_iff.mpr ht
    simp only [ht', Bool.not_false, if_true]
    exact Or.inl (by simp)

theorem ledgerInv_applyOp (db : DB) (op : AppOp) (hinv : LedgerInv db) :
    LedgerInv (applyOp db op) := by
  obtain ⟨hnd, hcnt⟩ := hinv
  cases op with
  | bookSeat b =>
    rcases hs : submitBooking db b with e | db'
    · simpa [applyOp, hs] using ⟨hnd, hcnt⟩
    · have hs' : dbInsert db { b with status := "pending" } = .ok db' := hs
      simp only [applyOp, hs]
      exact ⟨nodup_dbInsert hs' hnd, fun B N => activeCount_dbInsert hs' B N (hcnt B N)⟩
  | adminSetStatus bid st =>
    simp only [applyOp, updateBookingStatus]
    rcases hdu : dbUpdate db bid { setStatus := some st } with e | ⟨db', upd⟩
    · exact ⟨hnd, hcnt⟩
    · exact ⟨nodup_dbUpdate hdu hnd, fun B N => activeCount_dbUpdate hdu hnd B N (hcnt B N)⟩
  | webhook p netOk =>
    simp only [applyOp]
    rcases processWebhook_db_shape db p netOk with heq | ⟨ref, u, r, hdu⟩
    · rw [heq]; exact ⟨hnd, hcnt⟩
    · exact ⟨nodup_dbUpdate hdu hnd, fun B N => activeCount_dbUpdate hdu hnd B N (hcnt B N)⟩
  | seatSetActive sid a =>
    exact ⟨hnd, hcnt⟩
  | seatSetAllActive busId a =>
    exact ⟨hnd, hcnt⟩

theorem ledgerInv_reachable {db : DB} (h : Reachable db) : LedgerInv db := by
  induction h with
  | init seats dests picks buses =>
    exact ⟨List.nodup_nil, fun B N => by simp [activeCount]⟩
  | step op _ ih => exact ledgerInv_applyOp _ op ih

/-! ### Sortedness of the availability view -/

theorem insertBySeatNumber_perm (s : Seat) (l : List Seat) :
    (insertBySeatNumber s l).Perm (s :: l) := by
  induction l with
  | nil => exact List.Perm.refl _
  | cons t ts ih =>
    by_cases h : s.seatNumber ≤ t.seatNumber
    · simp [insertBySeatNumber, h]
    · simp only [insertBySeatNumber, if_neg h]
      exact (ih.cons t).trans (List.Perm.swap s t ts)

theorem sortBySeatNumber_perm (l : List Seat) : (sortBySeatNumber l).Perm l := by
  induction l with
  | nil => exact List.Perm.refl _
  | cons s ss ih =>
    exact (insertBySeatNumber_perm s (sortBySeatNumber ss)).trans (ih.cons s)

theorem insertBySeatNumber_pairwise (s : Seat) (l : List Seat)
    (h : l.Pairwise (fun a b => a.seatNumber ≤ b.seatNumber)) :
    (insertBySeatNumber s l).Pairwise (fun a b => a.seatNumber ≤ b.seatNumber) := by
  induction l with
  | nil => simp [insertBySeatNumber]
  | cons t ts ih =>
    rw [List.pairwise_cons] at h
    by_cases hle : s.seatNumber ≤ t.seatNumber
    · rw [insertBySeatNumber, if_pos hle, List.pairwise_cons]
      constructor
      · intro x hx
        rcases List.mem_cons.mp hx with rfl | hx
        · exact hle
        · exact le_trans hle (h.1 x hx)
      · rw [List.pairwise_cons]
        exact h
    · rw [insertBySeatNumber, if_neg hle, List.pairwise_cons]
      constructor
      · intro x hx
        rcases (insertBySeatNumber_perm s ts).mem_iff.mp hx with hx'
        rcases List.mem_cons.mp hx' with rfl | hx''
        · omega
        · exact h.1 x hx''
      · exact ih h.2

theorem sortBySeatNumber_pairwise (l : List Seat) :
    (sortBySeatNumber l).Pairwise (fun a b => a.seatNumber ≤ b.seatNumber) := by
  induction l with
  | nil => simp [sortBySeatNumber]
  | cons s ss ih => exact insertBySeatNumber_pairwise s _ ih

/-! ### Shape lemmas for webhook deliveries -/

theorem jsTruthy_of_ref {p : WebhookPayload} {ref : String}
    (hRef : whReference p = some ref) (hne : ref ≠ "") :
    jsTruthy (whReference p) = true := by
  rw [hRef]
  simpa [jsTruthy] using hne

theorem dbUpdate_found_ok {db : DB} {bid : String} {u : BookingUpdates} {b : Booking}
    (hfind : db.bookings.find? (fun x => x.id == bid) = some b)
    (hguard : (statusActive (applyUpdates u b).status &&
      conflictOthers db.bookings bid (applyUpdates u b).busId
        (applyUpdates u b).seatNumber) = false) :
    dbUpdate db bid u =
      .ok ({ db with bookings := updateFirst bid u db.bookings }, some (applyUpdates u b)) := by
  have h' : dbUpdate db bid u =
      (if statusActive (applyUpdates u b).status &&
          conflictOthers db.bookings bid (applyUpdates u b).busId (applyUpdates u b).seatNumber
        then (Except.error DBError.uniqueViolation : Except DBError (DB × Option Booking))
        else .ok ({ db with bookings := updateFirst bid u db.bookings },
                  some (applyUpdates u b))) := by
    rw [dbUpdate, hfind]
  rw [h', if_neg (by simp [hguard])]

theorem dbUpdate_found_error {db : DB} {bid : String} {u : BookingUpdates} {b : Booking}
    (hfind : db.bookings.find? (fun x => x.id == bid) = some b)
    (hguard : (statusActive (applyUpdates u b).status &&
      conflictOthers db.bookings bid (applyUpdates u b).busId
        (applyUpdates u b).seatNumber) = true) :
    dbUpdate db bid u = .error .uniqueViolation := by
  have h' : dbUpdate db bid u =
      (if statusActive (applyUpdates u b).status &&
          conflictOthers db.bookings bid (applyUpdates u b).busId (applyUpdates u b).seatNumber
        then (Except.error DBError.uniqueViolation : Except DBError (DB × Option Booking))
        else .ok ({ db with bookings := updateFirst bid u db.bookings },
                  some (applyUpdates u b))) := by
    rw [dbUpdate, hfind]
  rw [h', if_pos hguard]

theorem processWebhook_of_dbUpdate_ok {db : DB} {p : WebhookPayload} {ref : String}
    {db2 : DB} {upd : Option Booking} (netOk : Bool)
    (hRef : whReference p = some ref) (hne : ref ≠ "")
    (hdu : dbUpdate db ref (webhookUpdates p ref) = .ok (db2, upd)) :
    processWebhook db p netOk =
      { db := db2, response := .okTrue
        smsTasks :=
          match upd with
          | some row => if whIsPaid p then [sendPaidConfirmationSms db2 row.id (some row)] else []
          | none => []
        smsDelivered :=
          (match upd with
           | some row => if whIsPaid p then [sendPaidConfirmationSms db2 row.id (some row)] else []
           | none => ([] : List (Option Sms))).map
            (fun t : Option Sms => t.isSome && netOk) } := by
  have ht := jsTruthy_of_ref hRef hne
  rcases upd with _ | row <;>
    (rw [processWebhook]
     rw [ht]
     simp only [Bool.not_true, Bool.false_eq_true, if_false]
     rw [hRef]
     simp only [Option.getD_some]
     rw [hdu])

theorem processWebhook_of_dbUpdate_error {db : DB} {p : WebhookPayload} {ref : String}
    {e : DBError} (netOk : Bool)
    (hRef : whReference p = some ref) (hne : ref ≠ "")
    (hdu : dbUpdate db ref (webhookUpdates p ref) = .error e) :
    processWebhook db p netOk =
      { db := db, response := .serverError, smsTasks := [], smsDelivered := [] } := by
  have ht := jsTruthy_of_ref hRef hne
  rw [processWebhook]
  rw [ht]
  simp only [Bool.not_true, Bool.false_eq_true, if_false]
  rw [hRef]
  simp only [Option.getD_some]
  rw [hdu]

theorem processWebhook_ok_guard {db : DB} {p : WebhookPayload} {ref : String}
    {b : Booking} {netOk : Bool}
    (hRef : whReference p = some ref) (hne : ref ≠ "")
    (hfind : db.bookings.find? (fun x => x.id == ref) = some b)
    (hok : (processWebhook db p netOk).response = .okTrue) :
    (statusActive (applyUpdates (webhookUpdates p ref) b).status &&
      conflictOthers db.bookings ref (applyUpdates (webhookUpdates p ref) b).busId
        (applyUpdates (webhookUpdates p ref) b).seatNumber) = false := by
  cases hg : (statusActive (applyUpdates (webhookUpdates p ref) b).status &&
      conflictOthers db.bookings ref (applyUpdates (webhookUpdates p ref) b).busId
        (applyUpdates (webhookUpdates p ref) b).seatNumber)
  · rfl
  · exfalso
    have hdu := dbUpdate_found_error hfind hg
    rw [processWebhook_of_dbUpdate_error netOk hRef hne hdu] at hok
    exact absurd hok (by simp)

theorem updateFirst_twice (bid : String) (u : BookingUpdates) (l : List Booking) :
    updateFirst bid u (updateFirst bid u l) = updateFirst bid u l := by
  induction l with
  | nil => rfl
  | cons b bs ih =>
    by_cases h : (b.id == bid) = true
    · have h' : ((applyUpdates u b).id == bid) = true := by
        rw [applyUpdates_id]; exact h
      simp [updateFirst, h, h', applyUpdates_idem]
    · simp [updateFirst, h, ih]

theorem submitBooking_appends (db : DB) (b : Booking)
    (hconf : indexConflict db.bookings b.busId b.seatNumber = false)
    (hfresh : (db.bookings.any fun o => o.id == b.id) = false) :
    submitBooking db b =
      .ok { db with bookings := db.bookings ++ [{ b with status := "pending" }] } := by
  rw [submitBooking, dbInsert]
  rw [if_neg ?h1, if_neg ?h2]
  case h1 => simp [statusActive, hconf]
  case h2 => simp [hfresh]

theorem processWebhook_netOk_irrelevant (db : DB) (p : WebhookPayload) (n1 n2 : Bool) :
    (processWebhook db p n1).db = (processWebhook db p n2).db ∧
    (processWebhook db p n1).response = (processWebhook db p n2).response ∧
    (processWebhook db p n1).smsTasks = (processWebhook db p n2).smsTasks := by
  rw [processWebhook, processWebhook]
  by_cases ht : jsTruthy (whReference p) = true
  · simp only [ht, Bool.not_true, Bool.false_eq_true, if_false]
    rcases hdu : dbUpdate db ((whReference p).getD "")
        (webhookUpdates p ((whReference p).getD "")) with e | ⟨db', upd⟩
    · simp [hdu]
    · simp only [hdu]
      rcases upd with _ | row <;> simp
  · have ht' : jsTruthy (whReference p) = false := Bool.eq_false_iff.mpr ht
    simp [ht']

/-! ### Concrete states used by witnesses and counterexamples -/

/-- A fully populated booking row (the passenger fields are irrelevant to
the modelled logic but belong to the table shape). -/
def mkBooking (bid busId : String) (n : Nat) (st : String) : Booking :=
  { id := bid, fullName := "Ama Mensah", passengerClass := "100",
    email := "ama@example.com", phone := "0241234567",
    emergencyName := "Kofi Mensah", emergencyPhone := "0200000000",
    pickupPointId := "pp1", destinationId := "d1", busId := busId,
    seatNumber := n, referralId := none, amount := 8000,
    status := st, paymentReference := none, receiptUrl := none }

/-- The spec's availability example: seats 1 and 2 active, seat 3 inactive,
one paid booking on seat 1 (seat rows listed unsorted). -/
def exAvailDB : DB :=
  { seats := [⟨"s2", "B", 2, true⟩, ⟨"s3", "B", 3, false⟩, ⟨"s1", "B", 1, true⟩],
    bookings := [mkBooking "bk1" "B" 1 "paid"],
    destinations := [⟨"d1", "Kumasi"⟩],
    pickupPoints := [⟨"pp1", "Main Campus"⟩],
    buses := [⟨"B", "ATT-01"⟩] }

/-- Starting state of the racing-bookings scenario: one bus with one free
seat, empty ledger. -/
def exRaceBase : DB :=
  { seats := [⟨"s5", "A", 5, true⟩], bookings := [],
    destinations := [], pickupPoints := [], buses := [] }

/-- The two racing booking attempts for seat 5 of bus A. -/
def bkRace1 : Booking := mkBooking "r1" "A" 5 "pending"

def bkRace2 : Booking := mkBooking "r2" "A" 5 "pending"

/-- The state after the first racing attempt has won seat 5. -/
def exRaceAfter : DB :=
  { exRaceBase with bookings := [mkBooking "r1" "A" 5 "pending"] }

/-! ### The claims -/

/-- C1: at every reachable state of the booking ledger, each (bus, seat)
pair carries at most one booking with status in {pending, paid}; the
partial unique index serializes racing booking attempts for the same seat,
so when one attempt has created its pending row, the other insert is
rejected by the index (the application's seat-taken signal). -/
theorem C1_seat_allocation_invariant :
    (∀ db, Reachable db → ∀ B N, activeCount db B N ≤ 1) ∧
    (∀ (db db' : DB) (b1 b2 : Booking),
      b1.busId = b2.busId → b1.seatNumber = b2.seatNumber →
      submitBooking db b1 = .ok db' →
      ({ b1 with status := "pending" } ∈ db'.bookings ∧
        submitBooking db' b2 = .error .uniqueViolation)) := by
  constructor
  · intro db h B N
    exact (ledgerInv_reachable h).2 B N
  · intro db db' b1 b2 hbus hseat hsub
    obtain ⟨hdb, -, -⟩ := dbInsert_ok_shape hsub
    subst hdb
    have hmem : ({ b1 with status := "pending" } : Booking) ∈
        db.bookings ++ [{ b1 with status := "pending" }] := by simp
    refine ⟨hmem, ?_⟩
    rw [submitBooking, dbInsert]
    rw [if_pos ?hc]
    case hc =>
      rw [Bool.and_eq_true]
      refine ⟨rfl, ?_⟩
      rw [indexConflict, List.any_eq_true]
      refine ⟨{ b1 with status := "pending" }, hmem, ?_⟩
      simp [beq_iff_eq, hbus, hseat, statusActive]

/-- Witness for C1 at a concrete run: after the first racing attempt wins
seat 5 of bus A, the reachable-state invariant bounds the seat's active
bookings by one and the second racing attempt is rejected by the index. -/
theorem C1_seat_allocation_invariant_witness :
    activeCount exRaceAfter "A" 5 ≤ 1 ∧
    submitBooking exRaceAfter bkRace2 = .error .uniqueViolation := by
  constructor
  · exact C1_seat_allocation_invariant.1 exRaceAfter
      (Reachable.step (.bookSeat bkRace1) (Reachable.init _ _ _ _)) "A" 5
  · exact (C1_seat_allocation_invariant.2 exRaceBase exRaceAfter bkRace1 bkRace2
      rfl rfl rfl).2

/-- C2: `getSeatStatus` returns one record per seat of the bus (a
permutation of the derived rows of the bus's seat rows), ordered by seat
number ascending, with `status = "taken"` exactly when a pending or paid
booking exists for the (bus, seat) pair and `"available"` otherwise;
inactive seats are reported alongside active ones.  On the spec's example
state the result is exactly the three listed rows in order. -/
theorem C2_get_seat_status_contract :
    (∀ (db : DB) (B : String),
      ((get_seat_status db B).Pairwise (fun r1 r2 => r1.seatNumber ≤ r2.seatNumber)) ∧
      ((get_seat_status db B).Perm
        ((db.seats.filter (fun s => s.busId == B)).map (seatStatusRowOf db))) ∧
      (∀ r ∈ get_seat_status db B,
        (r.status = "taken" ↔ ∃ b ∈ db.bookings, b.busId = B ∧ b.seatNumber = r.seatNumber ∧
            (b.status = "pending" ∨ b.status = "paid")) ∧
        (r.status = "taken" ∨ r.status = "available"))) ∧
    get_seat_status exAvailDB "B" =
      [⟨1, true, "taken"⟩, ⟨2, true, "available"⟩, ⟨3, false, "available"⟩] := by
  constructor
  · intro db B
    refine ⟨?_, ?_, ?_⟩
    · rw [get_seat_status, List.pairwise_map]
      exact sortBySeatNumber_pairwise _
    · exact (sortBySeatNumber_perm _).map _
    · intro r hr
      rw [get_seat_status, List.mem_map] at hr
      obtain ⟨s, hs, rfl⟩ := hr
      have hsb : s.busId = B := by
        have hmem := (sortBySeatNumber_perm _).mem_iff.mp hs
        rw [List.mem_filter] at hmem
        exact beq_iff_eq.mp hmem.2
      constructor
      · constructor
        · intro htk
          cases hseat : seatTaken db.bookings s.busId s.seatNumber
          · rw [seatStatusRowOf] at htk
            simp only [hseat, Bool.false_eq_true, if_false] at htk
            exact absurd htk (by decide)
          · rw [seatTaken, List.any_eq_true] at hseat
            obtain ⟨b, hb, hprop⟩ := hseat
            have hp : (b.busId = s.busId ∧ b.seatNumber = s.seatNumber) ∧
                (b.status = "pending" ∨ b.status = "paid") := by
              simpa [Bool.and_eq_true, Bool.or_eq_true, beq_iff_eq] using hprop
            exact ⟨b, hb, by rw [hp.1.1, hsb], by
              rw [hp.1.2]; rfl, hp.2⟩
        · rintro ⟨b, hb, hB', hN', hst⟩
          have hseat : seatTaken db.bookings s.busId s.seatNumber = true := by
            rw [seatTaken, List.any_eq_true]
            refine ⟨b, hb, ?_⟩
            have hN'' : b.seatNumber = s.seatNumber := hN'
            simp [beq_iff_eq, hB', hsb, hN'', Bool.or_eq_true, hst]
          rw [seatStatusRowOf]
          simp [hseat]
      · cases hseat : seatTaken db.bookings s.busId s.seatNumber
        · right
          rw [seatStatusRowOf]
          simp [hseat]
        · left
          rw [seatStatusRowOf]
          simp [hseat]
  · rfl

/-- Witness for C2 at the spec's example state: the seat-1 row is reported
taken exactly because of the paid booking on seat 1 of bus B. -/
theorem C2_get_seat_status_contract_witness :
    (⟨1, true, "taken"⟩ : SeatStatusRow).status = "taken" ↔
      ∃ b ∈ exAvailDB.bookings, b.busId = "B" ∧
        b.seatNumber = (⟨1, true, "taken"⟩ : SeatStatusRow).seatNumber ∧
        (b.status = "pending" ∨ b.status = "paid") := by
  exact ((C2_get_seat_status_contract.1 exAvailDB "B").2.2
    ⟨1, true, "taken"⟩ (by rw [C2_get_seat_status_contract.2]; simp)).1

/-- A bus whose seat 3 exists but is inactive, with an empty ledger. -/
def exInactiveDB : DB :=
  { seats := [⟨"s3", "B", 3, false⟩], bookings := [],
    destinations := [], pickupPoints := [], buses := [] }

/-- Counterexample to C3: seat 3 of bus B is inactive, yet submitting a
booking for it is not rejected — the insert succeeds and a pending row is
created, so the booking ledger does change and no inactive-seat rejection
happens anywhere on the write path. -/
theorem C3_counterexample :
    (⟨"s3", "B", 3, false⟩ : Seat) ∈ exInactiveDB.seats ∧
    submitBooking exInactiveDB (mkBooking "c3" "B" 3 "pending") =
      .ok { exInactiveDB with bookings := [mkBooking "c3" "B" 3 "pending"] } ∧
    ({ exInactiveDB with bookings := [mkBooking "c3" "B" 3 "pending"] }).bookings ≠
      exInactiveDB.bookings := by
  refine ⟨by simp [exInactiveDB], rfl, by simp [exInactiveDB]⟩

/-- C3 as amended: inactive seats are unselectable in the seat-map UI (the
seat button is disabled for every inactive seat), but the booking write
path itself performs no inactive-seat check: an insert for an inactive
seat is accepted by the storage layer — subject only to the uniqueness
index and the primary key — and creates a pending booking row. -/
theorem C3_amended_inactive_seat_ui_only :
    (∀ r : SeatStatusRow, r.isActive = false → seatButtonDisabled r = true) ∧
    (∀ (db : DB) (b : Booking) (sid : String),
      (⟨sid, b.busId, b.seatNumber, false⟩ : Seat) ∈ db.seats →
      indexConflict db.bookings b.busId b.seatNumber = false →
      (db.bookings.any fun o => o.id == b.id) = false →
      submitBooking db b =
        .ok { db with bookings := db.bookings ++ [{ b with status := "pending" }] }) := by
  constructor
  · intro r h
    simp [seatButtonDisabled, h]
  · intro db b sid hmem hconf hfresh
    exact submitBooking_appends db b hconf hfresh

/-- Witness for the amended C3: the inactive seat-3 button is disabled,
while a direct booking insert for inactive seat 3 succeeds and appends a
pending row. -/
theorem C3_amended_inactive_seat_ui_only_witness :
    seatButtonDisabled ⟨3, false, "available"⟩ = true ∧
    submitBooking exInactiveDB (mkBooking "c3w" "B" 3 "pending") =
      .ok { exInactiveDB with bookings :=
        exInactiveDB.bookings ++ [{ mkBooking "c3w" "B" 3 "pending" with status := "pending" }] } := by
  exact ⟨C3_amended_inactive_seat_ui_only.1 ⟨3, false, "available"⟩ rfl,
    C3_amended_inactive_seat_ui_only.2 exInactiveDB (mkBooking "c3w" "B" 3 "pending") "s3"
      (by simp [exInactiveDB, mkBooking]) rfl rfl⟩

/-- Counterexample to C4: the admin Bookings page renders no button at all
for a booking in status `paid`, so the claimed `paid -> cancelled`
operator transition is not offered. -/
theorem C4_counterexample : adminOffers "paid" "cancelled" = false := rfl

/-- C4 as amended: the admin operator surface permits exactly the manual
transitions pending -> paid, pending -> cancelled and cancelled -> pending;
a booking in status `paid` gets no buttons at all, so neither
paid -> cancelled nor paid -> pending is offered, and no status outside
{pending, cancelled} offers any transition. -/
theorem C4_amended_admin_transitions :
    bookingActionTargets "pending" = ["paid", "cancelled"] ∧
    bookingActionTargets "cancelled" = ["pending"] ∧
    bookingActionTargets "paid" = [] ∧
    adminOffers "paid" "pending" = false ∧
    (∀ s : String, s ≠ "pending" → s ≠ "cancelled" → bookingActionTargets s = []) := by
  refine ⟨rfl, rfl, rfl, rfl, ?_⟩
  intro s h1 h2
  simp [bookingActionTargets, h1, h2]

/-- Witness for the amended C4: a status outside the vocabulary offers no
transition either. -/
theorem C4_amended_admin_transitions_witness :
    bookingActionTargets "refunded" = [] :=
  C4_amended_admin_transitions.2.2.2.2 "refunded" (by decide) (by decide)

/-- A cancelled booking whose seat was rebooked by another, now pending,
booking — the state in which a late paid webhook for the cancelled booking
collides with the partial unique index. -/
def exConflictDB : DB :=
  { seats := [], bookings := [mkBooking "b1" "B" 5 "cancelled", mkBooking "b2" "B" 5 "pending"],
    destinations := [], pickupPoints := [], buses := [] }

/-- A recognized-paid webhook payload referencing booking `b1`. -/
def pConflict : WebhookPayload := { clientReference := some "b1", status := some "Success" }

/-- A single pending booking awaiting its payment callback. -/
def exPendingDB : DB :=
  { seats := [], bookings := [mkBooking "w1" "B" 4 "pending"],
    destinations := [], pickupPoints := [], buses := [] }

/-- The successful paid callback for booking `w1`, carrying a transaction
id and a receipt URL. -/
def pPaidFull : WebhookPayload :=
  { clientReference := some "w1", status := some "Paid",
    transactionId := some "tx1", receiptUrl := some "https-receipt" }

/-- Counterexample to C5: a payload whose status is in the recognized set
and whose reference matches booking `b1` does not set that booking to
paid — `b1` is cancelled and its seat is held by pending booking `b2`, so
the UPDATE collides with the partial unique index, the webhook answers
500, and the state is unchanged. -/
theorem C5_counterexample :
    whIsPaid pConflict = true ∧
    whReference pConflict = some "b1" ∧
    exConflictDB.bookings.find? (fun x => x.id == "b1") =
      some (mkBooking "b1" "B" 5 "cancelled") ∧
    (processWebhook exConflictDB pConflict true).response = .serverError ∧
    (processWebhook exConflictDB pConflict true).db = exConflictDB := by
  exact ⟨rfl, rfl, rfl, rfl, rfl⟩

/-- C5 as amended: for a payload whose extracted status is in
{Success, Successful, Completed, PAID, Paid} and whose reference matches a
booking, the webhook stores the row updated with status `paid`,
`payment_reference = transactionId ?? reference` and `receipt_url` when one
is (truthily) provided — provided the update does not collide with the
partial unique index (no other pending/paid booking on the same (bus,
seat), which can only matter when the matched booking was cancelled); a
payload with any other status stores the same metadata while leaving the
lifecycle status unchanged. -/
theorem C5_amended_webhook_paid_vocabulary
    (db : DB) (p : WebhookPayload) (ref : String) (b : Booking) (netOk : Bool)
    (hRef : whReference p = some ref) (hne : ref ≠ "")
    (hfind : db.bookings.find? (fun x => x.id == ref) = some b)
    (hc : conflictOthers db.bookings ref b.busId b.seatNumber = false) :
    (processWebhook db p netOk).response = .okTrue ∧
    (processWebhook db p netOk).db.bookings.find? (fun x => x.id == ref) =
      some (applyUpdates (webhookUpdates p ref) b) ∧
    (whIsPaid p = true → (applyUpdates (webhookUpdates p ref) b).status = "paid") ∧
    (whIsPaid p = false → (applyUpdates (webhookUpdates p ref) b).status = b.status) ∧
    (applyUpdates (webhookUpdates p ref) b).paymentReference =
      some ((whTransactionId p).getD ref) ∧
    (applyUpdates (webhookUpdates p ref) b).receiptUrl =
      (if jsTruthy (whReceiptUrl p) = true then whReceiptUrl p else b.receiptUrl) := by
  have hguard : (statusActive (applyUpdates (webhookUpdates p ref) b).status &&
      conflictOthers db.bookings ref (applyUpdates (webhookUpdates p ref) b).busId
        (applyUpdates (webhookUpdates p ref) b).seatNumber) = false := by
    rw [applyUpdates_busId, applyUpdates_seatNumber, hc, Bool.and_false]
  have hdu := dbUpdate_found_ok hfind hguard
  have hp := processWebhook_of_dbUpdate_ok netOk hRef hne hdu
  refine ⟨by rw [hp], ?_, ?_, ?_, ?_, ?_⟩
  · rw [hp]
    show (updateFirst ref (webhookUpdates p ref) db.bookings).find? (fun x => x.id == ref) = _
    rw [find?_updateFirst, hfind]
    rfl
  · intro hpaid
    simp [applyUpdates, webhookUpdates, hpaid]
  · intro hnot
    simp [applyUpdates, webhookUpdates, hnot]
  · simp [applyUpdates, webhookUpdates]
  · by_cases hru : jsTruthy (whReceiptUrl p) = true
    · rcases hw : whReceiptUrl p with _ | w
      · rw [hw] at hru; exact absurd hru (by simp [jsTruthy])
      · rw [hw] at hru
        simp [applyUpdates, webhookUpdates, hw, hru]
    · have hru' : jsTruthy (whReceiptUrl p) = false := Bool.eq_false_iff.mpr hru
      simp [applyUpdates, webhookUpdates, hru']

/-- Witness for the amended C5: the paid callback for pending booking `w1`
answers 200 and stores the updated row. -/
theorem C5_amended_webhook_paid_vocabulary_witness :
    (processWebhook exPendingDB pPaidFull true).response = .okTrue ∧
    (processWebhook exPendingDB pPaidFull true).db.bookings.find? (fun x => x.id == "w1") =
      some (applyUpdates (webhookUpdates pPaidFull "w1") (mkBooking "w1" "B" 4 "pending")) := by
  have h := C5_amended_webhook_paid_vocabulary exPendingDB pPaidFull "w1"
    (mkBooking "w1" "B" 4 "pending") true rfl (by decide) rfl rfl
  exact ⟨h.1, h.2.1⟩

/-- C6: redelivering the same recognized-paid webhook payload is
idempotent — assuming the first delivery was accepted (which is the
situation the claim describes: one delivery already yields status `paid`
with `payment_reference` set), the second delivery returns the whole first
result again (same stored state, same `200 {ok:true}` response, same SMS
task), because every column is overwritten with the same value. -/
theorem C6_webhook_redelivery_idempotent
    (db : DB) (p : WebhookPayload) (ref : String) (b : Booking) (netOk : Bool)
    (hRef : whReference p = some ref) (hne : ref ≠ "")
    (hfind : db.bookings.find? (fun x => x.id == ref) = some b)
    (hPaid : whIsPaid p = true)
    (hok : (processWebhook db p netOk).response = .okTrue) :
    processWebhook (processWebhook db p netOk).db p netOk = processWebhook db p netOk ∧
    ((processWebhook db p netOk).db.bookings.find? (fun x => x.id == ref)).map
      Booking.status = some "paid" ∧
    ((processWebhook db p netOk).db.bookings.find? (fun x => x.id == ref)).map
      Booking.paymentReference = some (some ((whTransactionId p).getD ref)) := by
  have hguard := processWebhook_ok_guard hRef hne hfind hok
  have hdu := dbUpdate_found_ok hfind hguard
  have hp := processWebhook_of_dbUpdate_ok netOk hRef hne hdu
  have hfind2 : ({ db with bookings := updateFirst ref (webhookUpdates p ref) db.bookings }
      : DB).bookings.find? (fun x => x.id == ref) =
      some (applyUpdates (webhookUpdates p ref) b) := by
    show (updateFirst ref (webhookUpdates p ref) db.bookings).find? (fun x => x.id == ref) = _
    rw [find?_updateFirst, hfind]
    rfl
  have hguard2 : (statusActive
        (applyUpdates (webhookUpdates p ref) (applyUpdates (webhookUpdates p ref) b)).status &&
      conflictOthers ({ db with bookings := updateFirst ref (webhookUpdates p ref) db.bookings }
          : DB).bookings ref
        (applyUpdates (webhookUpdates p ref) (applyUpdates (webhookUpdates p ref) b)).busId
        (applyUpdates (webhookUpdates p ref) (applyUpdates (webhookUpdates p ref) b)).seatNumber)
      = false := by
    rw [applyUpdates_idem]
    show (_ && conflictOthers (updateFirst ref (webhookUpdates p ref) db.bookings) ref _ _) = false
    rw [conflictOthers_updateFirst]
    exact hguard
  have hdu2 := dbUpdate_found_ok hfind2 hguard2
  have hp2 := processWebhook_of_dbUpdate_ok netOk hRef hne hdu2
  have hst : (applyUpdates (webhookUpdates p ref) b).status = "paid" := by
    simp [applyUpdates, webhookUpdates, hPaid]
  refine ⟨?_, ?_, ?_⟩
  · rw [hp] at hok ⊢
    rw [hp2]
    show ({ db := _, response := _, smsTasks := _, smsDelivered := _ } : WebhookResult) = _
    simp only [updateFirst_twice, applyUpdates_idem]
  · rw [hp]
    show ((updateFirst ref (webhookUpdates p ref) db.bookings).find?
      (fun x => x.id == ref)).map Booking.status = _
    rw [find?_updateFirst, hfind]
    simp [hst]
  · rw [hp]
    show ((updateFirst ref (webhookUpdates p ref) db.bookings).find?
      (fun x => x.id == ref)).map Booking.paymentReference = _
    rw [find?_updateFirst, hfind]
    simp [applyUpdates, webhookUpdates]

/-- Witness for C6 on the concrete pending booking `w1`: the second
delivery of the paid callback reproduces the first result exactly, with
the booking paid and the payment reference recorded. -/
theorem C6_webhook_redelivery_idempotent_witness :
    processWebhook (processWebhook exPendingDB pPaidFull true).db pPaidFull true =
      processWebhook exPendingDB pPaidFull true ∧
    ((processWebhook exPendingDB pPaidFull true).db.bookings.find?
      (fun x => x.id == "w1")).map Booking.status = some "paid" := by
  have h := C6_webhook_redelivery_idempotent exPendingDB pPaidFull "w1"
    (mkBooking "w1" "B" 4 "pending") true rfl (by decide) rfl rfl rfl
  exact ⟨h.1, h.2.1⟩

/-- A pending booking about to be marked paid by an administrator. -/
def exAdminDB : DB :=
  { seats := [], bookings := [mkBooking "a1" "B" 7 "pending"],
    destinations := [], pickupPoints := [], buses := [] }

/-- Counterexample to C7: the admin "Mark Paid" operation transitions
booking `a1` from pending to paid and schedules no SMS at all, so it is
not the case that every transition of a booking to paid triggers exactly
one SMS notification — only the webhook path calls the SMS task. -/
theorem C7_counterexample :
    (exAdminDB.bookings.find? (fun x => x.id == "a1")).map Booking.status =
      some "pending" ∧
    ((applyOp exAdminDB (.adminSetStatus "a1" "paid")).bookings.find?
      (fun x => x.id == "a1")).map Booking.status = some "paid" ∧
    opSms exAdminDB (.adminSetStatus "a1" "paid") = [] := by
  exact ⟨rfl, rfl, rfl⟩

/-- C7 as amended: it is the webhook's recognized-paid deliveries (not
every transition to paid — the admin path sends nothing) that schedule
exactly one best-effort confirmation-SMS task; the task is computed from
the already-updated stored state, and neither the stored state, nor the
HTTP response, nor the scheduled task depends on whether the SMS delivery
later succeeds. -/
theorem C7_amended_sms_fire_and_forget
    (db : DB) (p : WebhookPayload) (ref : String) (b : Booking) (netOk : Bool)
    (hRef : whReference p = some ref) (hne : ref ≠ "")
    (hfind : db.bookings.find? (fun x => x.id == ref) = some b)
    (hPaid : whIsPaid p = true)
    (hc : conflictOthers db.bookings ref b.busId b.seatNumber = false) :
    (processWebhook db p netOk).smsTasks =
      [sendPaidConfirmationSms (processWebhook db p netOk).db
        (applyUpdates (webhookUpdates p ref) b).id
        (some (applyUpdates (webhookUpdates p ref) b))] ∧
    (processWebhook db p netOk).smsTasks.length = 1 ∧
    ((processWebhook db p netOk).db.bookings.find? (fun x => x.id == ref)).map
      Booking.status = some "paid" ∧
    (processWebhook db p netOk).response = .okTrue ∧
    (∀ n1 n2 : Bool,
      (processWebhook db p n1).db = (processWebhook db p n2).db ∧
      (processWebhook db p n1).response = (processWebhook db p n2).response ∧
      (processWebhook db p n1).smsTasks = (processWebhook db p n2).smsTasks) := by
  have hguard : (statusActive (applyUpdates (webhookUpdates p ref) b).status &&
      conflictOthers db.bookings ref (applyUpdates (webhookUpdates p ref) b).busId
        (applyUpdates (webhookUpdates p ref) b).seatNumber) = false := by
    rw [applyUpdates_busId, applyUpdates_seatNumber, hc, Bool.and_false]
  have hdu := dbUpdate_found_ok hfind hguard
  have hp := processWebhook_of_dbUpdate_ok netOk hRef hne hdu
  have hst : (applyUpdates (webhookUpdates p ref) b).status = "paid" := by
    simp [applyUpdates, webhookUpdates, hPaid]
  refine ⟨?_, ?_, ?_, by rw [hp], fun n1 n2 => processWebhook_netOk_irrelevant db p n1 n2⟩
  · rw [hp]
    simp [hPaid]
  · rw [hp]
    simp [hPaid]
  · rw [hp]
    show ((updateFirst ref (webhookUpdates p ref) db.bookings).find?
      (fun x => x.id == ref)).map Booking.status = _
    rw [find?_updateFirst, hfind]
    simp [hst]

/-- Witness for the amended C7: the paid callback for booking `w1`
schedules exactly one SMS task and the booking is stored as paid. -/
theorem C7_amended_sms_fire_and_forget_witness :
    (processWebhook exPendingDB pPaidFull true).smsTasks.length = 1 ∧
    ((processWebhook exPendingDB pPaidFull true).db.bookings.find?
      (fun x => x.id == "w1")).map Booking.status = some "paid" := by
  have h := C7_amended_sms_fire_and_forget exPendingDB pPaidFull "w1"
    (mkBooking "w1" "B" 4 "pending") true rfl (by decide) rfl rfl rfl
  exact ⟨h.2.1, h.2.2.1⟩

/-- C8: a webhook request without a (truthy) reference, and one whose
reference matches no booking, are both acknowledged with `200 {ok:true}`
and leave the state completely unchanged, scheduling no SMS. -/
theorem C8_webhook_tolerates_unmatched (db : DB) (p : WebhookPayload) (netOk : Bool) :
    (jsTruthy (whReference p) = false →
      processWebhook db p netOk =
        { db := db, response := .okTrue, smsTasks := [], smsDelivered := [] }) ∧
    (∀ ref : String, whReference p = some ref → ref ≠ "" →
      db.bookings.find? (fun x => x.id == ref) = none →
      processWebhook db p netOk =
        { db := db, response := .okTrue, smsTasks := [], smsDelivered := [] }) := by
  constructor
  · intro ht
    rw [processWebhook]
    simp [ht]
  · intro ref hRef hne hfind
    have hdu : dbUpdate db ref (webhookUpdates p ref) = .ok (db, none) := by
      rw [dbUpdate, hfind]
    have hp := processWebhook_of_dbUpdate_ok netOk hRef hne hdu
    rw [hp]
    rfl

/-- Witness for C8: a paid-status payload without any reference, and one
with an unmatched reference, both answer 200 and leave the example state
untouched. -/
theorem C8_webhook_tolerates_unmatched_witness :
    processWebhook exAvailDB { status := some "Success" } true =
      { db := exAvailDB, response := .okTrue, smsTasks := [], smsDelivered := [] } ∧
    processWebhook exAvailDB { clientReference := some "nope", status := some "Success" } true =
      { db := exAvailDB, response := .okTrue, smsTasks := [], smsDelivered := [] } := by
  exact ⟨(C8_webhook_tolerates_unmatched exAvailDB _ true).1 rfl,
    (C8_webhook_tolerates_unmatched exAvailDB _ true).2 "nope" rfl (by decide) rfl⟩

/-- A cancelled booking whose seat is free again. -/
def exCancelledFreeDB : DB :=
  { seats := [], bookings := [mkBooking "c9f" "Q" 3 "cancelled"],
    destinations := [], pickupPoints := [], buses := [] }

/-- The recognized-paid callback for the cancelled booking `c9f`. -/
def pCancelledPaid : WebhookPayload :=
  { clientReference := some "c9f", status := some "Completed" }

/-- A cancelled booking whose seat has been rebooked and already paid. -/
def exRebookedDB : DB :=
  { seats := [], bookings := [mkBooking "c9a" "Q" 2 "cancelled", mkBooking "c9b" "Q" 2 "paid"],
    destinations := [], pickupPoints := [], buses := [] }

/-- The recognized-paid callback for the rebooked cancelled booking `c9a`. -/
def pRebookedPaid : WebhookPayload :=
  { clientReference := some "c9a", status := some "Paid" }

/-- Counterexample to C9: the cancelled booking `c9a` is not set to paid by
a recognized-paid delivery carrying its id — its seat is occupied by the
paid booking `c9b`, so the id-filtered UPDATE collides with the partial
unique index and the webhook answers 500 with `c9a` still cancelled. -/
theorem C9_counterexample :
    (exRebookedDB.bookings.find? (fun x => x.id == "c9a")).map Booking.status =
      some "cancelled" ∧
    whIsPaid pRebookedPaid = true ∧
    whReference pRebookedPaid = some "c9a" ∧
    ((processWebhook exRebookedDB pRebookedPaid true).db.bookings.find?
      (fun x => x.id == "c9a")).map Booking.status = some "cancelled" ∧
    (processWebhook exRebookedDB pRebookedPaid true).response = .serverError := by
  exact ⟨rfl, rfl, rfl, rfl, rfl⟩

/-- C9 as amended: because the webhook's UPDATE filters on the booking id
only and never on the current status, a recognized-paid delivery for a
cancelled booking does set it to paid — a cancelled -> paid transition —
whenever no other pending/paid booking holds the same (bus, seat); when
the seat has been rebooked, the partial unique index rejects the update
instead and the webhook answers 500. -/
theorem C9_amended_cancelled_to_paid
    (db : DB) (p : WebhookPayload) (ref : String) (b : Booking) (netOk : Bool)
    (hRef : whReference p = some ref) (hne : ref ≠ "")
    (hfind : db.bookings.find? (fun x => x.id == ref) = some b)
    (_hCancelled : b.status = "cancelled")
    (hPaid : whIsPaid p = true)
    (hc : conflictOthers db.bookings ref b.busId b.seatNumber = false) :
    ((processWebhook db p netOk).db.bookings.find? (fun x => x.id == ref)).map
      Booking.status = some "paid" ∧
    (processWebhook db p netOk).response = .okTrue := by
  have hguard : (statusActive (applyUpdates (webhookUpdates p ref) b).status &&
      conflictOthers db.bookings ref (applyUpdates (webhookUpdates p ref) b).busId
        (applyUpdates (webhookUpdates p ref) b).seatNumber) = false := by
    rw [applyUpdates_busId, applyUpdates_seatNumber, hc, Bool.and_false]
  have hdu := dbUpdate_found_ok hfind hguard
  have hp := processWebhook_of_dbUpdate_ok netOk hRef hne hdu
  refine ⟨?_, by rw [hp]⟩
  rw [hp]
  show ((updateFirst ref (webhookUpdates p ref) db.bookings).find?
    (fun x => x.id == ref)).map Booking.status = _
  rw [find?_updateFirst, hfind]
  simp [applyUpdates, webhookUpdates, hPaid]

/-- Witness for the amended C9: the cancelled booking `c9f`, whose seat is
free, is set to paid by the recognized-paid delivery. -/
theorem C9_amended_cancelled_to_paid_witness :
    ((processWebhook exCancelledFreeDB pCancelledPaid true).db.bookings.find?
      (fun x => x.id == "c9f")).map Booking.status = some "paid" := by
  exact (C9_amended_cancelled_to_paid exCancelledFreeDB pCancelledPaid "c9f"
    (mkBooking "c9f" "Q" 3 "cancelled") true rfl (by decide) rfl rfl rfl rfl).1

/-- A booking for a seat number that has no row in the seat registry. -/
def bkGhost : Booking := mkBooking "g1" "B" 99 "pending"

/-- C10: booking creation is not coupled to the seat registry — a pending
booking can be created for a (bus, seat number) pair with no seat row (no
foreign key exists on `bookings.seat_number`), and `get_seat_status`,
which enumerates only rows of the seats table, never reports that seat
number. -/
theorem C10_no_seat_registry_coupling (db : DB) (b : Booking)
    (hnoseat : ∀ s ∈ db.seats, s.busId = b.busId → s.seatNumber ≠ b.seatNumber)
    (hconf : indexConflict db.bookings b.busId b.seatNumber = false)
    (hfresh : (db.bookings.any fun o => o.id == b.id) = false) :
    submitBooking db b =
      .ok { db with bookings := db.bookings ++ [{ b with status := "pending" }] } ∧
    ∀ r ∈ get_seat_status
        { db with bookings := db.bookings ++ [{ b with status := "pending" }] } b.busId,
      r.seatNumber ≠ b.seatNumber := by
  refine ⟨submitBooking_appends db b hconf hfresh, ?_⟩
  intro r hr
  rw [get_seat_status, List.mem_map] at hr
  obtain ⟨s, hs, rfl⟩ := hr
  have hmem := (sortBySeatNumber_perm _).mem_iff.mp hs
  rw [List.mem_filter] at hmem
  have hsb : s.busId = b.busId := beq_iff_eq.mp hmem.2
  exact hnoseat s hmem.1 hsb

/-- Witness for C10: booking ghost seat 99 of bus B succeeds although no
such seat row exists, and the availability view for bus B never mentions
seat 99. -/
theorem C10_no_seat_registry_coupling_witness :
    submitBooking exAvailDB bkGhost =
      .ok { exAvailDB with bookings :=
        exAvailDB.bookings ++ [{ bkGhost with status := "pending" }] } ∧
    ∀ r ∈ get_seat_status
        { exAvailDB with bookings := exAvailDB.bookings ++ [{ bkGhost with status := "pending" }] }
        "B",
      r.seatNumber ≠ 99 := by
  exact C10_no_seat_registry_coupling exAvailDB bkGhost (by decide) rfl rfl

end AttBus
